import Mathlib

/-!
Shallow embedding of `main.py` (AI PDF organizer).

Strings are modelled as Lean `String` (a list of characters).  The Python
string methods used by the program (`strip`, `lower`, `upper`, `split`,
`capitalize`, `title`, `replace`, `endswith`, substring `in`) are modelled
character-by-character below.  Character case mapping is modelled for the
ASCII range (Lean's `Char.toUpper` / `Char.toLower`); non-ASCII characters
pass through unchanged, which agrees with Python on the inputs used in the
theorems of this file.

The external collaborators (PyMuPDF text extraction, the Gemini API call,
the JSON parser of the standard library, and the success of a `shutil.copy2`
call) are modelled as an oracle record of functions; everything the script
itself computes is translated directly from the source.
-/

/-- Python whitespace test for ASCII: space, \t, \n, \r, \v (11), \f (12). -/
def pyIsSpace (c : Char) : Bool :=
  c == ' ' || c == '\t' || c == '\n' || c == '\r' ||
  c == Char.ofNat 11 || c == Char.ofNat 12

/-- Python `str.lower()` (ASCII model). -/
def pyLower (s : String) : String := ⟨s.data.map Char.toLower⟩

/-- Python `str.upper()` (ASCII model). -/
def pyUpper (s : String) : String := ⟨s.data.map Char.toUpper⟩

/-- Python `str.strip()`: drop leading and trailing whitespace. -/
def pyStrip (s : String) : String :=
  ⟨((s.data.dropWhile pyIsSpace).reverse.dropWhile pyIsSpace).reverse⟩

/-- Worker for Python `str.split()` (split on whitespace runs, no empty
words); `cur` is the current word accumulated in reverse. -/
def wordsAux : List Char → List Char → List (List Char)
  | cur, [] => if cur.isEmpty then [] else [cur.reverse]
  | cur, c :: rest =>
    if pyIsSpace c then
      if cur.isEmpty then wordsAux [] rest else cur.reverse :: wordsAux [] rest
    else
      wordsAux (c :: cur) rest

/-- Python `str.split()` with no arguments. -/
def pySplitWs (s : String) : List (List Char) := wordsAux [] s.data

/-- Python `str.capitalize()`: first character upper-cased, the rest of the
word lower-cased. -/
def pyCapitalize : List Char → List Char
  | [] => []
  | c :: rest => Char.toUpper c :: rest.map Char.toLower

/-- Python `" ".join(...)` on a list of words. -/
def joinSpace : List (List Char) → List Char
  | [] => []
  | [w] => w
  | w :: ws => w ++ ' ' :: joinSpace ws

/-- Worker for Python `str.title()`: the flag records whether the previous
character was alphabetic (cased). -/
def pyTitleGo : Bool → List Char → List Char
  | _, [] => []
  | prevAlpha, c :: rest =>
    (if c.isAlpha then (if prevAlpha then Char.toLower c else Char.toUpper c) else c)
      :: pyTitleGo c.isAlpha rest

/-- Python `str.title()` (ASCII model). -/
def pyTitle (s : String) : String := ⟨pyTitleGo false s.data⟩

/-- `hasPrefixL p l` holds when `p` is a leading segment of `l`. -/
def hasPrefixL : List Char → List Char → Bool
  | [], _ => true
  | _ :: _, [] => false
  | p :: ps, c :: cs => p == c && hasPrefixL ps cs

/-- `hasSubL k l` holds when `k` occurs contiguously inside `l`. -/
def hasSubL (k : List Char) : List Char → Bool
  | [] => k.isEmpty
  | c :: rest => hasPrefixL k (c :: rest) || hasSubL k rest

/-- Python substring test `k in s`. -/
def pyIn (k s : String) : Bool := hasSubL k.data s.data

/-- Python `s.endswith(suf)`. -/
def pyEndsWith (s suf : String) : Bool :=
  hasPrefixL suf.data.reverse s.data.reverse

/-- Worker for Python `str.replace(pat, rep)`: leftmost, non-overlapping.
(The empty-pattern edge case of Python is never exercised by the program,
which only replaces the non-empty fence markers.) -/
def pyReplaceL (pat rep : List Char) (s : List Char) : List Char :=
  match s with
  | [] => []
  | c :: rest =>
    if h : pat ≠ [] ∧ hasPrefixL pat (c :: rest) = true then
      rep ++ pyReplaceL pat rep (List.drop pat.length (c :: rest))
    else
      c :: pyReplaceL pat rep rest
termination_by s.length
decreasing_by
  · simp only [List.length_drop, List.length_cons]
    have hp : 0 < pat.length := List.length_pos.mpr h.1
    omega
  · simp only [List.length_cons]
    omega

/-- Python `s.replace(pat, rep)`. -/
def pyReplace (s pat rep : String) : String := ⟨pyReplaceL pat.data rep.data s.data⟩

/-- Python `a or b` on strings (empty string is falsy). -/
def pyOr (a b : String) : String := if a = "" then b else a

/-- Does a character list start with a path separator? -/
def startsSlashL : List Char → Bool
  | [] => false
  | c :: _ => c == '/'

/-- Does a character list end with a path separator? -/
def endsSlashL (l : List Char) : Bool := startsSlashL l.reverse

/-- One step of `posixpath.join`: `join(a, b)`. -/
def pjoin2 (a b : String) : String :=
  if startsSlashL b.data = true then b
  else if a.data = [] ∨ endsSlashL a.data = true then a ++ b
  else a ++ "/" ++ b

/-- `os.path.abspath` for a fixed current working directory `cwd` (POSIX
model; the dot-segment collapsing of `normpath` is not exercised by any
claim and is omitted). -/
def pabspath (cwd p : String) : String := pjoin2 cwd p

-- -----------------------
-- CONFIGURATION (main.py lines 16-22)
-- -----------------------

def SOURCE_FOLDER : String := "PDFsForOrganizer"

def DESTINATION_FOLDER : String := "OrganizerPdfs"

/-- main.py line 20: `IGNORE_KEYWORDS = ["", ""]`. -/
def IGNORE_KEYWORDS : List String := ["", ""]

-- -----------------------
-- COUNTRY NORMALIZATION (main.py lines 27-103)
-- -----------------------

/-- The `COUNTRY_NORMALIZATION` dict of main.py, as an association list in
source order. -/
def COUNTRY_NORMALIZATION : List (String × String) :=
  [("usa", "United States"),
   ("us", "United States"),
   ("u.s.", "United States"),
   ("u.s.a", "United States"),
   ("estados unidos", "United States"),
   ("america", "United States"),
   ("united states of america", "United States"),
   ("uk", "United Kingdom"),
   ("u.k.", "United Kingdom"),
   ("england", "United Kingdom"),
   ("britain", "United Kingdom"),
   ("great britain", "United Kingdom"),
   ("brasil", "Brazil"),
   ("brazil", "Brazil"),
   ("argentina", "Argentina"),
   ("chile", "Chile"),
   ("spain", "Spain"),
   ("espanha", "Spain"),
   ("china", "China"),
   ("korea", "South Korea"),
   ("south korea", "South Korea"),
   ("japan", "Japan"),
   ("thailand", "Thailand"),
   ("india", "India"),
   ("switzerland", "Switzerland"),
   ("suisse", "Switzerland"),
   ("schweiz", "Switzerland"),
   ("nederland", "Netherlands"),
   ("holland", "Netherlands"),
   ("netherlands", "Netherlands"),
   ("uae", "United Arab Emirates"),
   ("emirates", "United Arab Emirates"),
   ("dubai", "United Arab Emirates"),
   ("hong kong", "China")]

/-- Python `COUNTRY_NORMALIZATION.get k` (keys are distinct, so first match
equals dict lookup). -/
def cnLookup (k : String) : Option String :=
  (COUNTRY_NORMALIZATION.find? (fun p => p.1 == k)).map (fun p => p.2)

/-- main.py line 96: `key = country.strip().lower()`. -/
def countryKey (country : String) : String := pyLower (pyStrip country)

/-- main.py line 97: keep alphanumeric and whitespace characters of `key`,
then strip. -/
def countryKey2 (country : String) : String :=
  pyStrip ⟨(countryKey country).data.filter (fun c => c.isAlphanum || pyIsSpace c)⟩

/-- main.py lines 93-98: `normalize_country`. -/
def normalize_country (country : String) : String :=
  if country = "" then ""
  else
    match cnLookup (countryKey country) with
    | some v => v
    | none =>
      match cnLookup (countryKey2 country) with
      | some v => v
      | none => pyTitle (pyStrip country)

/-- main.py lines 100-103: `normalize_city`. -/
def normalize_city (city : String) : String :=
  if city = "" then ""
  else ⟨joinSpace ((pySplitWs (pyStrip city)).map pyCapitalize)⟩

/-- main.py line 242: `continent = continent_raw.upper()` (no trimming). -/
def normalize_continent (continent : String) : String := pyUpper continent

-- -----------------------
-- RAW RECORDS AND ORACLES
-- -----------------------

/-- One entry of the JSON list returned by the classifier (main.py lines
234-236).  A key absent from the JSON object behaves like the empty string
under Python `or`, so missing fields are modelled as `""`. -/
structure RawRecord where
  city : String
  cidade : String
  country : String
  pais : String
  continent : String
  continente : String
deriving DecidableEq

/-- main.py line 234: `d.get("city") or d.get("cidade") or ""`. -/
def rawCity (d : RawRecord) : String := pyOr d.city (pyOr d.cidade "")

/-- main.py line 235: `d.get("country") or d.get("pais") or ""`. -/
def rawCountry (d : RawRecord) : String := pyOr d.country (pyOr d.pais "")

/-- main.py line 236: `d.get("continent") or d.get("continente") or ""`. -/
def rawContinent (d : RawRecord) : String := pyOr d.continent (pyOr d.continente "")

/-- A placement key: (absolute source path, absolute destination path)
(main.py line 252). -/
abbrev Key := String × String

/-- The external collaborators of the script, as pure oracles:
`extractText` is the result of `extract_text` (PyMuPDF wrapped in
try/except, possibly `""`); `classifyResp` is the Gemini response text, or
`none` when the API call raises; `parseJson` is `json.loads` wrapped in its
try/except, `none` on a parse error; `copyOk n` tells whether the `n`-th
copy attempt of the run succeeds. -/
structure Oracles where
  extractText : String → String
  classifyResp : String → String → Option String
  parseJson : String → Option (List RawRecord)
  copyOk : Nat → Bool

/-- Per-record outcome of the destination loop (main.py lines 233-263). -/
inductive Outcome where
  | rejectedIncomplete (d : RawRecord)
  | skipped (k : Key)
  | placed (dir : String) (k : Key)
  | copyFailed (k : Key)
deriving DecidableEq

/-- Externally visible side effects, in program order. -/
inductive Event where
  | extract (src : String)
  | classify (filename : String)
  | mkdirs (dir : String)
  | copy (src dst : String)
deriving DecidableEq

structure RecResult where
  out : Outcome
  events : List Event
  st : List Key
  cnt : Nat
deriving DecidableEq

structure RecsResult where
  outcomes : List Outcome
  events : List Event
  st : List Key
  cnt : Nat
deriving DecidableEq

-- -----------------------
-- DESTINATION RESOLUTION AND PLACEMENT (main.py lines 233-263)
-- -----------------------

/-- main.py line 248:
`os.path.join(DESTINATION_FOLDER, continent, country, city)`. -/
def resolvedDir (continent country city : String) : String :=
  pjoin2 (pjoin2 (pjoin2 DESTINATION_FOLDER continent) country) city

/-- The `final_dir` of main.py line 248 for one raw record. -/
def recDir (d : RawRecord) : String :=
  resolvedDir (normalize_continent (rawContinent d))
    (normalize_country (rawCountry d)) (normalize_city (rawCity d))

/-- The `dst` of main.py line 251 for one raw record. -/
def recDst (filename : String) (d : RawRecord) : String :=
  pjoin2 (recDir d) filename

/-- The dedup key of main.py line 252:
`(os.path.abspath(src), os.path.abspath(dst))`. -/
def recKey (cwd src filename : String) (d : RawRecord) : Key :=
  (pabspath cwd src, pabspath cwd (recDst filename d))

/-- One iteration of the destination loop (main.py lines 233-263): `st` is
the `copied` set, `cnt` counts copy attempts made so far in the run. -/
def processRecord (o : Oracles) (cwd filename src : String)
    (st : List Key) (cnt : Nat) (d : RawRecord) : RecResult :=
  if normalize_city (rawCity d) ≠ "" ∧ normalize_country (rawCountry d) ≠ "" ∧
      normalize_continent (rawContinent d) ≠ "" then
    if recKey cwd src filename d ∈ st then
      ⟨Outcome.skipped (recKey cwd src filename d),
        [Event.mkdirs (recDir d)], st, cnt⟩
    else if o.copyOk cnt then
      ⟨Outcome.placed (recDir d) (recKey cwd src filename d),
        [Event.mkdirs (recDir d), Event.copy src (recDst filename d)],
        recKey cwd src filename d :: st, cnt + 1⟩
    else
      ⟨Outcome.copyFailed (recKey cwd src filename d),
        [Event.mkdirs (recDir d), Event.copy src (recDst filename d)],
        st, cnt + 1⟩
  else
    ⟨Outcome.rejectedIncomplete d, [], st, cnt⟩

/-- The destination loop over all records of one document (main.py line
233). -/
def processRecords (o : Oracles) (cwd filename src : String) :
    List Key → Nat → List RawRecord → RecsResult
  | st, cnt, [] => ⟨[], [], st, cnt⟩
  | st, cnt, d :: rest =>
    let r := processRecord o cwd filename src st cnt d
    let rs := processRecords o cwd filename src r.st r.cnt rest
    ⟨r.out :: rs.outcomes, r.events ++ rs.events, rs.st, rs.cnt⟩

-- -----------------------
-- GEMINI ANALYSIS (main.py lines 151-196)
-- -----------------------

/-- main.py lines 182-185: strip the response text, remove the code-fence
markers, strip again. -/
def cleanResp (resp : String) : String :=
  pyStrip (pyReplace (pyReplace (pyStrip resp) "```json" "") "```" "")

/-- main.py lines 151-196: `analyze_text_with_gemini`.  Returns `[]` when
the API call raises (outer except) or when `json.loads` raises (inner
except). -/
def analyze (o : Oracles) (text filename : String) : List RawRecord :=
  match o.classifyResp text filename with
  | none => []
  | some resp =>
    match o.parseJson (cleanResp resp) with
    | none => []
    | some recs => recs

-- -----------------------
-- MAIN LOOP (main.py lines 201-268)
-- -----------------------

/-- How one file of the source listing fares in `main`. -/
inductive FileOutcome where
  | notPdf
  | ignored
  | noText
  | noDestinations
  | processed (outs : List Outcome)
deriving DecidableEq

structure FileResult where
  out : FileOutcome
  events : List Event
  st : List Key
  cnt : Nat
deriving DecidableEq

/-- One iteration of the file loop (main.py lines 208-265), with the
keyword list as a parameter; `main` instantiates it with
`IGNORE_KEYWORDS`. -/
def processFileWith (kws : List String) (o : Oracles) (cwd : String)
    (st : List Key) (cnt : Nat) (filename : String) : FileResult :=
  if pyEndsWith (pyLower filename) ".pdf" = false then
    ⟨FileOutcome.notPdf, [], st, cnt⟩
  else
    let src := pjoin2 SOURCE_FOLDER filename
    if kws.any (fun k => pyIn k (pyLower filename)) = true then
      ⟨FileOutcome.ignored, [], st, cnt⟩
    else
      let text := o.extractText src
      if (pyStrip text).data = [] then
        ⟨FileOutcome.noText, [Event.extract src], st, cnt⟩
      else
        let recs := analyze o text filename
        if recs = [] then
          ⟨FileOutcome.noDestinations, [Event.extract src, Event.classify filename], st, cnt⟩
        else
          let r := processRecords o cwd filename src st cnt recs
          ⟨FileOutcome.processed r.outcomes,
            Event.extract src :: Event.classify filename :: r.events, r.st, r.cnt⟩

structure RunResult where
  results : List (String × FileOutcome)
  events : List Event
  st : List Key
  cnt : Nat
deriving DecidableEq

/-- The file loop of `main` over a directory listing, threading the
`copied` set and the copy-attempt counter. -/
def runWith (kws : List String) (o : Oracles) (cwd : String) :
    List Key → Nat → List String → RunResult
  | st, cnt, [] => ⟨[], [], st, cnt⟩
  | st, cnt, f :: rest =>
    let r := processFileWith kws o cwd st cnt f
    let rs := runWith kws o cwd r.st r.cnt rest
    ⟨(f, r.out) :: rs.results, r.events ++ rs.events, rs.st, rs.cnt⟩

/-- main.py `main()`: `copied = set()` starts empty and the configured
`IGNORE_KEYWORDS` list is used. -/
def runMain (o : Oracles) (cwd : String) (listing : List String) : RunResult :=
  runWith IGNORE_KEYWORDS o cwd [] 0 listing

-- -----------------------
-- COUNTING HELPERS FOR THE DEDUPLICATION CLAIMS
-- -----------------------

/-- Is this outcome a successful placement with key `k`? -/
def isPlacedFor (k : Key) : Outcome → Bool
  | Outcome.placed _ k' => k' == k
  | _ => false

/-- Number of successful placements with key `k` among the outcomes. -/
def countPlaced (outs : List Outcome) (k : Key) : Nat :=
  (outs.filter (isPlacedFor k)).length

/-- Is this event a copy operation? -/
def isCopyEv : Event → Bool
  | Event.copy _ _ => true
  | _ => false

/-- Is this outcome a dedup skip? -/
def isSkipOut : Outcome → Bool
  | Outcome.skipped _ => true
  | _ => false

-- -----------------------
-- HELPER LEMMAS
-- -----------------------

theorem dataAppend (a b : String) : (a ++ b).data = a.data ++ b.data := by
  cases a; cases b; rfl

theorem pyIn_empty_left (s : String) : pyIn "" s = true := by
  unfold pyIn
  cases h : s.data <;> simp [hasSubL, hasPrefixL]

theorem startsSlash_append (x z : List Char) (hx : x ≠ []) :
    startsSlashL (x ++ z) = startsSlashL x := by
  cases x with
  | nil => exact absurd rfl hx
  | cons c t => rfl

theorem endsSlash_append (x y : List Char) (hy : y ≠ []) :
    endsSlashL (x ++ y) = endsSlashL y := by
  unfold endsSlashL
  rw [List.reverse_append]
  exact startsSlash_append _ _ (fun h => hy (List.reverse_eq_nil_iff.mp h))

theorem pjoin2_segment (a b : String) (ha : a.data ≠ [])
    (hae : endsSlashL a.data = false) (hbs : startsSlashL b.data = false) :
    pjoin2 a b = a ++ "/" ++ b := by
  unfold pjoin2
  rw [if_neg (by simp [hbs]), if_neg (by simp [ha, hae])]

theorem pjoin2_chain (a b : String) (ha : a.data ≠ [])
    (hae : endsSlashL a.data = false) (hbs : startsSlashL b.data = false) :
    pjoin2 a b = a ++ "/" ++ b ∧ (a ++ "/" ++ b).data ≠ [] ∧
      (b.data ≠ [] → endsSlashL (a ++ "/" ++ b).data = endsSlashL b.data) := by
  refine ⟨pjoin2_segment a b ha hae hbs, ?_, ?_⟩
  · rw [dataAppend, dataAppend]
    simp [List.append_eq_nil]
  · intro hb
    rw [dataAppend, dataAppend, List.append_assoc]
    rw [endsSlash_append _ _ (by simp)]
    have : ("/" : String).data ++ b.data = ['/'] ++ b.data := rfl
    rw [this, endsSlash_append _ _ hb]

theorem wordsAux_spaces (sps : List Char) (h : ∀ c ∈ sps, pyIsSpace c = true) :
    ∀ cur, wordsAux cur sps = if cur.isEmpty = true then [] else [cur.reverse] := by
  induction sps with
  | nil => intro cur; rfl
  | cons c rest ih =>
    intro cur
    have hc : pyIsSpace c = true := h c (List.mem_cons_self c rest)
    have hrest : ∀ x ∈ rest, pyIsSpace x = true :=
      fun x hx => h x (List.mem_cons_of_mem c hx)
    simp only [wordsAux, hc, if_true]
    rw [ih hrest []]
    split <;> rfl

theorem wordsAux_append_spaces (sps : List Char)
    (h : ∀ c ∈ sps, pyIsSpace c = true) :
    ∀ l cur, wordsAux cur (l ++ sps) = wordsAux cur l := by
  intro l
  induction l with
  | nil =>
    intro cur
    rw [List.nil_append, wordsAux_spaces sps h cur]
    rfl
  | cons c t ih =>
    intro cur
    simp only [List.cons_append, wordsAux, List.append_eq, ih]

theorem wordsAux_dropWhile (l : List Char) :
    wordsAux [] (l.dropWhile pyIsSpace) = wordsAux [] l := by
  induction l with
  | nil => rfl
  | cons c t ih =>
    by_cases hc : pyIsSpace c = true
    · rw [List.dropWhile_cons, if_pos hc, ih]
      simp only [wordsAux, hc, if_true, List.isEmpty_nil]
    · rw [List.dropWhile_cons, if_neg hc]

theorem split_strip (s : String) : pySplitWs (pyStrip s) = pySplitWs s := by
  unfold pySplitWs pyStrip
  show wordsAux [] (((s.data.dropWhile pyIsSpace).reverse.dropWhile pyIsSpace).reverse)
      = wordsAux [] s.data
  have hdecomp : s.data.dropWhile pyIsSpace =
      ((s.data.dropWhile pyIsSpace).reverse.dropWhile pyIsSpace).reverse ++
        ((s.data.dropWhile pyIsSpace).reverse.takeWhile pyIsSpace).reverse := by
    conv_lhs =>
      rw [← List.reverse_reverse (s.data.dropWhile pyIsSpace),
        ← List.takeWhile_append_dropWhile (p := pyIsSpace)
          (l := (s.data.dropWhile pyIsSpace).reverse)]
    rw [List.reverse_append]
  have hsp : ∀ c ∈ ((s.data.dropWhile pyIsSpace).reverse.takeWhile pyIsSpace).reverse,
      pyIsSpace c = true := by
    intro c hc
    rw [List.mem_reverse] at hc
    exact List.mem_takeWhile_imp hc
  calc wordsAux [] (((s.data.dropWhile pyIsSpace).reverse.dropWhile pyIsSpace).reverse)
      = wordsAux [] ((((s.data.dropWhile pyIsSpace).reverse.dropWhile pyIsSpace).reverse) ++
          (((s.data.dropWhile pyIsSpace).reverse.takeWhile pyIsSpace).reverse)) :=
        (wordsAux_append_spaces _ hsp _ []).symm
    _ = wordsAux [] (s.data.dropWhile pyIsSpace) := by rw [← hdecomp]
    _ = wordsAux [] s.data := wordsAux_dropWhile s.data

/-- Full case characterization of one destination-loop iteration. -/
theorem processRecord_char (o : Oracles) (cwd filename src : String)
    (st : List Key) (cnt : Nat) (d : RawRecord) :
    (¬(normalize_city (rawCity d) ≠ "" ∧ normalize_country (rawCountry d) ≠ "" ∧
        normalize_continent (rawContinent d) ≠ "") ∧
      processRecord o cwd filename src st cnt d =
        ⟨Outcome.rejectedIncomplete d, [], st, cnt⟩) ∨
    ((normalize_city (rawCity d) ≠ "" ∧ normalize_country (rawCountry d) ≠ "" ∧
        normalize_continent (rawContinent d) ≠ "") ∧
      recKey cwd src filename d ∈ st ∧
      processRecord o cwd filename src st cnt d =
        ⟨Outcome.skipped (recKey cwd src filename d),
          [Event.mkdirs (recDir d)], st, cnt⟩) ∨
    ((normalize_city (rawCity d) ≠ "" ∧ normalize_country (rawCountry d) ≠ "" ∧
        normalize_continent (rawContinent d) ≠ "") ∧
      recKey cwd src filename d ∉ st ∧ o.copyOk cnt = true ∧
      processRecord o cwd filename src st cnt d =
        ⟨Outcome.placed (recDir d) (recKey cwd src filename d),
          [Event.mkdirs (recDir d), Event.copy src (recDst filename d)],
          recKey cwd src filename d :: st, cnt + 1⟩) ∨
    ((normalize_city (rawCity d) ≠ "" ∧ normalize_country (rawCountry d) ≠ "" ∧
        normalize_continent (rawContinent d) ≠ "") ∧
      recKey cwd src filename d ∉ st ∧ o.copyOk cnt = false ∧
      processRecord o cwd filename src st cnt d =
        ⟨Outcome.copyFailed (recKey cwd src filename d),
          [Event.mkdirs (recDir d), Event.copy src (recDst filename d)],
          st, cnt + 1⟩) := by
  by_cases hcomp : normalize_city (rawCity d) ≠ "" ∧
      normalize_country (rawCountry d) ≠ "" ∧ normalize_continent (rawContinent d) ≠ ""
  · by_cases hk : recKey cwd src filename d ∈ st
    · refine Or.inr (Or.inl ⟨hcomp, hk, ?_⟩)
      unfold processRecord
      rw [if_pos hcomp, if_pos hk]
    · by_cases hcp : o.copyOk cnt = true
      · refine Or.inr (Or.inr (Or.inl ⟨hcomp, hk, hcp, ?_⟩))
        unfold processRecord
        rw [if_pos hcomp, if_neg hk, if_pos hcp]
      · refine Or.inr (Or.inr (Or.inr ⟨hcomp, hk, by simpa using hcp, ?_⟩))
        unfold processRecord
        rw [if_pos hcomp, if_neg hk, if_neg hcp]
  · refine Or.inl ⟨hcomp, ?_⟩
    unfold processRecord
    rw [if_neg hcomp]

theorem processRecord_mem_mono (o : Oracles) (cwd filename src : String)
    (st : List Key) (cnt : Nat) (d : RawRecord) (k : Key) (h : k ∈ st) :
    k ∈ (processRecord o cwd filename src st cnt d).st := by
  rcases processRecord_char o cwd filename src st cnt d with
    ⟨_, he⟩ | ⟨_, _, he⟩ | ⟨_, _, _, he⟩ | ⟨_, _, _, he⟩ <;> rw [he]
  · exact h
  · exact h
  · exact List.mem_cons_of_mem _ h
  · exact h

theorem processRecord_placed (o : Oracles) (cwd filename src : String)
    (st : List Key) (cnt : Nat) (d : RawRecord) (dir : String) (k : Key)
    (h : (processRecord o cwd filename src st cnt d).out = Outcome.placed dir k) :
    k ∉ st ∧ (processRecord o cwd filename src st cnt d).st = k :: st := by
  rcases processRecord_char o cwd filename src st cnt d with
    ⟨_, he⟩ | ⟨_, _, he⟩ | ⟨_, hk, _, he⟩ | ⟨_, _, _, he⟩
  · rw [he] at h; injection h
  · rw [he] at h; injection h
  · rw [he] at h ⊢
    injection h with h1 h2
    subst h2
    exact ⟨hk, rfl⟩
  · rw [he] at h; injection h

theorem processRecord_skipped (o : Oracles) (cwd filename src : String)
    (st : List Key) (cnt : Nat) (d : RawRecord) (k : Key)
    (h : (processRecord o cwd filename src st cnt d).out = Outcome.skipped k) :
    k ∈ st ∧ (processRecord o cwd filename src st cnt d).st = st ∧
      (processRecord o cwd filename src st cnt d).events = [Event.mkdirs (recDir d)] := by
  rcases processRecord_char o cwd filename src st cnt d with
    ⟨_, he⟩ | ⟨_, hk, he⟩ | ⟨_, _, _, he⟩ | ⟨_, _, _, he⟩
  · rw [he] at h; injection h
  · rw [he] at h ⊢
    injection h with h1
    subst h1
    exact ⟨hk, rfl, rfl⟩
  · rw [he] at h; injection h
  · rw [he] at h; injection h

theorem isPlacedFor_true (k : Key) (out : Outcome)
    (h : isPlacedFor k out = true) : ∃ dir, out = Outcome.placed dir k := by
  cases out with
  | placed dir k' =>
    refine ⟨dir, ?_⟩
    have : k' = k := by simpa [isPlacedFor] using h
    rw [this]
  | rejectedIncomplete d => simp [isPlacedFor] at h
  | skipped k' => simp [isPlacedFor] at h
  | copyFailed k' => simp [isPlacedFor] at h

theorem countPlaced_nil (k : Key) : countPlaced [] k = 0 := rfl

theorem countPlaced_cons (x : Outcome) (xs : List Outcome) (k : Key) :
    countPlaced (x :: xs) k =
      (if isPlacedFor k x = true then 1 else 0) + countPlaced xs k := by
  unfold countPlaced
  rw [List.filter_cons]
  split <;> simp [Nat.add_comm]

theorem processRecords_no_placed_of_mem (o : Oracles) (cwd filename src : String)
    (recs : List RawRecord) :
    ∀ (st : List Key) (cnt : Nat) (k : Key), k ∈ st →
      countPlaced (processRecords o cwd filename src st cnt recs).outcomes k = 0 := by
  induction recs with
  | nil => intro st cnt k _; rfl
  | cons d rest ih =>
    intro st cnt k hk
    simp only [processRecords]
    rw [countPlaced_cons]
    have hmono : k ∈ (processRecord o cwd filename src st cnt d).st :=
      processRecord_mem_mono o cwd filename src st cnt d k hk
    have hnp : isPlacedFor k (processRecord o cwd filename src st cnt d).out = false := by
      by_contra hb
      have hb' : isPlacedFor k (processRecord o cwd filename src st cnt d).out = true := by
        revert hb; cases isPlacedFor k (processRecord o cwd filename src st cnt d).out <;> simp
      obtain ⟨dir, hout⟩ := isPlacedFor_true _ _ hb'
      exact (processRecord_placed o cwd filename src st cnt d dir k hout).1 hk
    rw [hnp]
    simpa using ih _ _ k hmono

theorem processRecords_placed_at_most_once (o : Oracles) (cwd filename src : String)
    (recs : List RawRecord) :
    ∀ (st : List Key) (cnt : Nat) (k : Key),
      countPlaced (processRecords o cwd filename src st cnt recs).outcomes k ≤ 1 := by
  induction recs with
  | nil => intro st cnt k; exact Nat.zero_le 1
  | cons d rest ih =>
    intro st cnt k
    simp only [processRecords]
    rw [countPlaced_cons]
    by_cases hp : isPlacedFor k (processRecord o cwd filename src st cnt d).out = true
    · obtain ⟨dir, hout⟩ := isPlacedFor_true _ _ hp
      have hst := (processRecord_placed o cwd filename src st cnt d dir k hout).2
      have hmem : k ∈ (processRecord o cwd filename src st cnt d).st := by
        rw [hst]; exact List.mem_cons_self k st
      rw [hp, processRecords_no_placed_of_mem o cwd filename src rest _ _ k hmem]
      simp
    · have hp' : isPlacedFor k (processRecord o cwd filename src st cnt d).out = false := by
        revert hp; cases isPlacedFor k (processRecord o cwd filename src st cnt d).out <;> simp
      rw [hp']
      simpa using ih _ _ k

theorem ignore_filter_always (f : String) :
    IGNORE_KEYWORDS.any (fun k => pyIn k (pyLower f)) = true := by
  simp [IGNORE_KEYWORDS, pyIn_empty_left]

theorem processFileWith_ignored (o : Oracles) (cwd : String) (st : List Key)
    (cnt : Nat) (f : String) :
    processFileWith IGNORE_KEYWORDS o cwd st cnt f =
      if pyEndsWith (pyLower f) ".pdf" = false then ⟨FileOutcome.notPdf, [], st, cnt⟩
      else ⟨FileOutcome.ignored, [], st, cnt⟩ := by
  unfold processFileWith
  by_cases h : pyEndsWith (pyLower f) ".pdf" = false
  · rw [if_pos h, if_pos h]
  · rw [if_neg h, if_neg h, if_pos (ignore_filter_always f)]

theorem runWith_ignored (o : Oracles) (cwd : String) :
    ∀ (listing : List String) (st : List Key) (cnt : Nat),
      runWith IGNORE_KEYWORDS o cwd st cnt listing =
        ⟨listing.map (fun f =>
            (f, if pyEndsWith (pyLower f) ".pdf" = false
                then FileOutcome.notPdf else FileOutcome.ignored)),
          [], st, cnt⟩ := by
  intro listing
  induction listing with
  | nil => intro st cnt; rfl
  | cons f rest ih =>
    intro st cnt
    simp only [runWith, processFileWith_ignored, List.map_cons]
    by_cases h : pyEndsWith (pyLower f) ".pdf" = false
    · rw [if_pos h, if_pos h]
      simp [ih]
    · rw [if_neg h, if_neg h]
      simp [ih]

-- -----------------------
-- CONCRETE INPUTS FOR COUNTEREXAMPLES AND WITNESSES
-- -----------------------

/-- Oracle whose first copy attempt fails and all later ones succeed (a
transient `shutil.copy2` error). -/
def o4cex : Oracles :=
  ⟨fun _ => "", fun _ _ => none, fun _ => none, fun n => n != 0⟩

/-- A complete destination record: Paris / France / EUROPE. -/
def d0cex : RawRecord := ⟨"Paris", "", "France", "", "EUROPE", ""⟩

/-- The run of the destination loop on the same record twice, with the
first copy attempt failing. -/
def run4cex : RecsResult :=
  processRecords o4cex "/w" "a.pdf" "PDFsForOrganizer/a.pdf" [] 0 [d0cex, d0cex]

/-- The placement key of `d0cex` for source `PDFsForOrganizer/a.pdf` and
cwd `/w`. -/
def k0cex : Key :=
  ("/w/PDFsForOrganizer/a.pdf", "/w/OrganizerPdfs/EUROPE/France/Paris/a.pdf")

/-- Oracle whose classification call always raises (API failure). -/
def o9cex : Oracles :=
  ⟨fun _ => "x", fun _ _ => none, fun _ => none, fun _ => true⟩

/-- An incomplete record: non-empty city and continent, empty country. -/
def d5cex : RawRecord := ⟨"Paris", "", "", "", "EUROPE", ""⟩

-- -----------------------
-- CLAIMS
-- -----------------------

set_option maxRecDepth 8192

/-- C1: With the configured `IGNORE_KEYWORDS = ["", ""]`, the ignore-keyword
filter matches every filename (the empty string is a substring of every
string), so `main` skips every PDF as ignored and never extracts text,
classifies, or places any document: a run produces no events at all, an
empty copied set, and every file's outcome is `ignored` (PDFs) or `notPdf`
(everything else). -/
theorem C1_every_pdf_ignored (o : Oracles) (cwd : String) (listing : List String) :
    (∀ f : String, IGNORE_KEYWORDS.any (fun k => pyIn k (pyLower f)) = true) ∧
    (runMain o cwd listing).events = [] ∧
    (runMain o cwd listing).st = [] ∧
    (runMain o cwd listing).results =
      listing.map (fun f =>
        (f, if pyEndsWith (pyLower f) ".pdf" = false
            then FileOutcome.notPdf else FileOutcome.ignored)) := by
  refine ⟨ignore_filter_always, ?_, ?_, ?_⟩ <;>
    · unfold runMain
      rw [runWith_ignored]

/-- C2 counterexample: the claim says capitalization leaves the remainder of
each word unchanged (internal capitals preserved); the code uses Python
`str.capitalize`, which lower-cases the remainder: "McDonald" becomes
"Mcdonald", not "McDonald". -/
theorem C2_counterexample :
    normalize_city "McDonald" = "Mcdonald" ∧
    normalize_city "McDonald" ≠ "McDonald" := by decide

/-- C2 (amended): city normalization trims, collapses internal whitespace by
splitting on whitespace and rejoining with single spaces, and capitalizes
each word by upper-casing its first character and lower-casing the
remainder (internal capitals are not preserved); empty input yields the
empty string. -/
theorem C2_city_normalization :
    (∀ s : String, normalize_city s = ⟨joinSpace ((pySplitWs s).map pyCapitalize)⟩) ∧
    (∀ (c : Char) (cs : List Char),
      pyCapitalize (c :: cs) = Char.toUpper c :: cs.map Char.toLower) ∧
    normalize_city "  são   paulo " = "São Paulo" ∧
    normalize_city "" = "" := by
  refine ⟨?_, fun c cs => rfl, by decide, by decide⟩
  intro s
  by_cases h : s = ""
  · subst h; decide
  · unfold normalize_city
    rw [if_neg h, split_strip]

/-- C3 counterexample: the claim says the normalized continent equals the
trimmed input upper-cased; the code upper-cases without trimming, so
" europe" normalizes to " EUROPE", not "EUROPE". -/
theorem C3_counterexample :
    normalize_continent " europe" = " EUROPE" ∧
    pyUpper (pyStrip " europe") = "EUROPE" ∧
    normalize_continent " europe" ≠ pyUpper (pyStrip " europe") := by decide

/-- C3 (amended): continent normalization upper-cases the raw input string
without trimming; it agrees with the trimmed-uppercase form exactly on
inputs that carry no leading or trailing whitespace. -/
theorem C3_continent_normalization (s : String) :
    normalize_continent s = pyUpper s ∧
    (pyStrip s = s → normalize_continent s = pyUpper (pyStrip s)) :=
  ⟨rfl, fun h => by rw [h]; rfl⟩

theorem C3_witness :
    pyStrip "asia" = "asia" ∧
    normalize_continent "asia" = pyUpper (pyStrip "asia") :=
  ⟨by decide, (C3_continent_normalization "asia").2 (by decide)⟩

/-- C4 counterexample: the dedup set records a key only after a successful
copy, so when the first copy of a key fails the next occurrence of the same
key is attempted again: on the same record twice with the first copy attempt
failing, the run performs two copy operations with the same key and reports
no skip, refuting "answers true exactly once per distinct key (the first
time it is observed)" and "at most one physical copy operation per key per
run". -/
theorem C4_counterexample :
    run4cex.outcomes = [Outcome.copyFailed k0cex,
      Outcome.placed "OrganizerPdfs/EUROPE/France/Paris" k0cex] ∧
    (run4cex.events.filter isCopyEv).length = 2 ∧
    (run4cex.outcomes.filter isSkipOut).length = 0 ∧
    ¬((run4cex.events.filter isCopyEv).length ≤ 1) := by decide

/-- C4 (amended): a key is recorded in the copied set only when its copy
succeeds; within one run each key yields at most one successful placement,
a key already in the set yields no further placement, and a skipped outcome
occurs exactly for keys already in the set, leaving the set unchanged and
producing no copy; a failed copy does not record the key, so that key may
be retried by a later record. -/
theorem C4_dedup_per_key (o : Oracles) (cwd filename src : String)
    (st : List Key) (cnt : Nat) (recs : List RawRecord) (k : Key) :
    countPlaced (processRecords o cwd filename src st cnt recs).outcomes k ≤ 1 ∧
    (k ∈ st →
      countPlaced (processRecords o cwd filename src st cnt recs).outcomes k = 0) ∧
    (∀ d k', (processRecord o cwd filename src st cnt d).out = Outcome.skipped k' →
      k' ∈ st ∧ (processRecord o cwd filename src st cnt d).st = st ∧
      (processRecord o cwd filename src st cnt d).events = [Event.mkdirs (recDir d)]) :=
  ⟨processRecords_placed_at_most_once o cwd filename src recs st cnt k,
   fun hk => processRecords_no_placed_of_mem o cwd filename src recs st cnt k hk,
   fun d k' h => processRecord_skipped o cwd filename src st cnt d k' h⟩

theorem C4_witness :
    (k0cex ∈ [k0cex]) ∧
    countPlaced (processRecords o4cex "/w" "a.pdf" "PDFsForOrganizer/a.pdf"
      [k0cex] 0 [d0cex, d0cex]).outcomes k0cex = 0 :=
  ⟨by decide,
   (C4_dedup_per_key o4cex "/w" "a.pdf" "PDFsForOrganizer/a.pdf"
      [k0cex] 0 [d0cex, d0cex] k0cex).2.1 (by decide)⟩

/-- C5: if any of the normalized city, country, continent fields is empty
the record is rejected as incomplete — no directory creation, no copy, no
state change — and the destination loop continues with the remaining
records of the same document; in particular a record whose raw country is
empty is rejected regardless of its city and continent. -/
theorem C5_incomplete_rejected (o : Oracles) (cwd filename src : String)
    (st : List Key) (cnt : Nat) (d : RawRecord) (rest : List RawRecord)
    (h : normalize_city (rawCity d) = "" ∨ normalize_country (rawCountry d) = "" ∨
      normalize_continent (rawContinent d) = "") :
    processRecord o cwd filename src st cnt d =
      ⟨Outcome.rejectedIncomplete d, [], st, cnt⟩ ∧
    processRecords o cwd filename src st cnt (d :: rest) =
      ⟨Outcome.rejectedIncomplete d ::
          (processRecords o cwd filename src st cnt rest).outcomes,
        (processRecords o cwd filename src st cnt rest).events,
        (processRecords o cwd filename src st cnt rest).st,
        (processRecords o cwd filename src st cnt rest).cnt⟩ ∧
    (∀ d' : RawRecord, rawCountry d' = "" →
      processRecord o cwd filename src st cnt d' =
        ⟨Outcome.rejectedIncomplete d', [], st, cnt⟩) := by
  have hneg : ¬(normalize_city (rawCity d) ≠ "" ∧ normalize_country (rawCountry d) ≠ "" ∧
      normalize_continent (rawContinent d) ≠ "") := by
    rcases h with h | h | h <;> simp [h]
  have h1 : processRecord o cwd filename src st cnt d =
      ⟨Outcome.rejectedIncomplete d, [], st, cnt⟩ := by
    unfold processRecord; rw [if_neg hneg]
  refine ⟨h1, ?_, ?_⟩
  · simp only [processRecords, h1, List.nil_append]
  · intro d' hd'
    have hc' : normalize_country (rawCountry d') = "" := by rw [hd']; rfl
    have hneg' : ¬(normalize_city (rawCity d') ≠ "" ∧
        normalize_country (rawCountry d') ≠ "" ∧
        normalize_continent (rawContinent d') ≠ "") := by simp [hc']
    unfold processRecord; rw [if_neg hneg']

theorem C5_witness :
    (normalize_city (rawCity d5cex) = "" ∨ normalize_country (rawCountry d5cex) = "" ∨
      normalize_continent (rawContinent d5cex) = "") ∧
    processRecord o9cex "/w" "a.pdf" "PDFsForOrganizer/a.pdf" [] 0 d5cex =
      ⟨Outcome.rejectedIncomplete d5cex, [], [], 0⟩ :=
  ⟨by decide,
   (C5_incomplete_rejected o9cex "/w" "a.pdf" "PDFsForOrganizer/a.pdf" [] 0 d5cex []
      (by decide)).1⟩

/-- C6: country normalization looks up the trimmed-lowercased input in the
alias table first, then the form stripped of characters that are neither
alphanumeric nor whitespace, and falls back to title-casing the trimmed
original when neither key matches; in particular both "U.S.A." and "usa"
normalize to "United States". -/
theorem C6_country_lookup_order :
    (∀ country : String, country ≠ "" →
      (∀ v, cnLookup (countryKey country) = some v → normalize_country country = v) ∧
      (cnLookup (countryKey country) = none →
        ∀ v, cnLookup (countryKey2 country) = some v → normalize_country country = v) ∧
      (cnLookup (countryKey country) = none → cnLookup (countryKey2 country) = none →
        normalize_country country = pyTitle (pyStrip country))) ∧
    normalize_country "U.S.A." = "United States" ∧
    normalize_country "usa" = "United States" := by
  refine ⟨?_, by decide, by decide⟩
  intro country hne
  refine ⟨?_, ?_, ?_⟩
  · intro v hv; unfold normalize_country; rw [if_neg hne, hv]
  · intro h0 v hv; unfold normalize_country; rw [if_neg hne, h0, hv]
  · intro h0 h2; unfold normalize_country; rw [if_neg hne, h0, h2]

theorem C6_witness :
    ("brasil" : String) ≠ "" ∧ cnLookup (countryKey "brasil") = some "Brazil" ∧
    normalize_country "brasil" = "Brazil" :=
  ⟨by decide, by decide,
   (C6_country_lookup_order.1 "brasil" (by decide)).1 "Brazil" (by decide)⟩

/-- C7: `normalize_country` is idempotent on every alias string in the
country table (the keys of `COUNTRY_NORMALIZATION`). -/
theorem C7_idempotent_on_aliases :
    ∀ p ∈ COUNTRY_NORMALIZATION,
      normalize_country (normalize_country p.1) = normalize_country p.1 := by decide

theorem C7_witness :
    (("usa", "United States") ∈ COUNTRY_NORMALIZATION) ∧
    normalize_country (normalize_country (("usa", "United States") : String × String).1) =
      normalize_country (("usa", "United States") : String × String).1 :=
  ⟨by decide, C7_idempotent_on_aliases ("usa", "United States") (by decide)⟩

/-- C8: for field values that are genuine single path segments (non-empty,
not starting or ending with a separator) the resolved directory is exactly
`<root>/<CONTINENT>/<Country>/<City>` with the fixed root "OrganizerPdfs",
and the copy destination appends `/<original filename>`; the path is a pure
function of those four values, so identical normalized destinations yield
the identical path. -/
theorem C8_path_layout (cont country city filename : String)
    (hc1 : cont.data ≠ []) (hc2 : startsSlashL cont.data = false)
    (hc3 : endsSlashL cont.data = false)
    (ho1 : country.data ≠ []) (ho2 : startsSlashL country.data = false)
    (ho3 : endsSlashL country.data = false)
    (hy1 : city.data ≠ []) (hy2 : startsSlashL city.data = false)
    (hy3 : endsSlashL city.data = false)
    (hf : startsSlashL filename.data = false) :
    DESTINATION_FOLDER = "OrganizerPdfs" ∧
    resolvedDir cont country city =
      "OrganizerPdfs" ++ "/" ++ cont ++ "/" ++ country ++ "/" ++ city ∧
    pjoin2 (resolvedDir cont country city) filename =
      "OrganizerPdfs" ++ "/" ++ cont ++ "/" ++ country ++ "/" ++ city ++ "/" ++ filename := by
  obtain ⟨e1, n1, f1⟩ := pjoin2_chain DESTINATION_FOLDER cont (by decide) (by decide) hc2
  obtain ⟨e2, n2, f2⟩ :=
    pjoin2_chain (DESTINATION_FOLDER ++ "/" ++ cont) country n1 ((f1 hc1).trans hc3) ho2
  obtain ⟨e3, n3, f3⟩ :=
    pjoin2_chain (DESTINATION_FOLDER ++ "/" ++ cont ++ "/" ++ country) city n2
      ((f2 ho1).trans ho3) hy2
  obtain ⟨e4, _, _⟩ :=
    pjoin2_chain (DESTINATION_FOLDER ++ "/" ++ cont ++ "/" ++ country ++ "/" ++ city)
      filename n3 ((f3 hy1).trans hy3) hf
  refine ⟨rfl, ?_, ?_⟩
  · unfold resolvedDir
    rw [e1, e2, e3]
    rfl
  · unfold resolvedDir
    rw [e1, e2, e3, e4]
    rfl

theorem C8_witness :
    (("EUROPE" : String).data ≠ [] ∧ startsSlashL ("EUROPE" : String).data = false ∧
      endsSlashL ("EUROPE" : String).data = false) ∧
    (("France" : String).data ≠ [] ∧ startsSlashL ("France" : String).data = false ∧
      endsSlashL ("France" : String).data = false) ∧
    (("Paris" : String).data ≠ [] ∧ startsSlashL ("Paris" : String).data = false ∧
      endsSlashL ("Paris" : String).data = false) ∧
    startsSlashL ("a.pdf" : String).data = false ∧
    pjoin2 (resolvedDir "EUROPE" "France" "Paris") "a.pdf" =
      "OrganizerPdfs" ++ "/" ++ "EUROPE" ++ "/" ++ "France" ++ "/" ++ "Paris" ++ "/" ++ "a.pdf" :=
  ⟨⟨by decide, by decide, by decide⟩, ⟨by decide, by decide, by decide⟩,
   ⟨by decide, by decide, by decide⟩, by decide,
   (C8_path_layout "EUROPE" "France" "Paris" "a.pdf" (by decide) (by decide) (by decide)
      (by decide) (by decide) (by decide) (by decide) (by decide) (by decide)
      (by decide)).2.2⟩

/-- C9: a failed classification call, or a response whose cleaned text fails
to parse as JSON, makes `analyze_text_with_gemini` return the empty record
list; the file loop reports such a document as "no destinations" and
continues with the remaining files, with the copied set and attempt counter
unchanged. -/
theorem C9_classification_failure_empty (o : Oracles) :
    (∀ text fn, o.classifyResp text fn = none → analyze o text fn = []) ∧
    (∀ text fn resp, o.classifyResp text fn = some resp →
      o.parseJson (cleanResp resp) = none → analyze o text fn = []) ∧
    (∀ (kws : List String) (cwd : String) (st : List Key) (cnt : Nat)
        (f : String) (rest : List String),
      pyEndsWith (pyLower f) ".pdf" = true →
      kws.any (fun k => pyIn k (pyLower f)) = false →
      (pyStrip (o.extractText (pjoin2 SOURCE_FOLDER f))).data ≠ [] →
      analyze o (o.extractText (pjoin2 SOURCE_FOLDER f)) f = [] →
      runWith kws o cwd st cnt (f :: rest) =
        ⟨(f, FileOutcome.noDestinations) :: (runWith kws o cwd st cnt rest).results,
          Event.extract (pjoin2 SOURCE_FOLDER f) :: Event.classify f ::
            (runWith kws o cwd st cnt rest).events,
          (runWith kws o cwd st cnt rest).st,
          (runWith kws o cwd st cnt rest).cnt⟩) := by
  refine ⟨?_, ?_, ?_⟩
  · intro text fn h; unfold analyze; rw [h]
  · intro text fn resp h1 h2; simp [analyze, h1, h2]
  · intro kws cwd st cnt f rest hpdf hkw htext hana
    have hfile : processFileWith kws o cwd st cnt f =
        ⟨FileOutcome.noDestinations,
          [Event.extract (pjoin2 SOURCE_FOLDER f), Event.classify f], st, cnt⟩ := by
      simp only [processFileWith]
      rw [if_neg (by simp [hpdf]), if_neg (by simp [hkw]), if_neg htext, if_pos hana]
    simp only [runWith, hfile, List.cons_append, List.nil_append]

theorem C9_witness :
    pyEndsWith (pyLower "a.pdf") ".pdf" = true ∧
    (([] : List String).any (fun k => pyIn k (pyLower "a.pdf"))) = false ∧
    (pyStrip (o9cex.extractText (pjoin2 SOURCE_FOLDER "a.pdf"))).data ≠ [] ∧
    analyze o9cex (o9cex.extractText (pjoin2 SOURCE_FOLDER "a.pdf")) "a.pdf" = [] ∧
    runWith [] o9cex "/w" [] 0 ["a.pdf"] =
      ⟨[("a.pdf", FileOutcome.noDestinations)],
        [Event.extract (pjoin2 SOURCE_FOLDER "a.pdf"), Event.classify "a.pdf"], [], 0⟩ :=
  ⟨by decide, by decide, by decide, by rfl,
   (C9_classification_failure_empty o9cex).2.2 [] "/w" [] 0 "a.pdf" []
     (by decide) (by decide) (by decide) (by rfl)⟩

/-- C10: for a complete record the destination directory is created first —
the first event is always `mkdirs` — before the dedup check and before the
copy: a dedup-skipped record still produces exactly the mkdirs event and
changes nothing else (no copy, set unchanged), and a record whose copy
fails still has mkdirs before the copy attempt with the set unchanged. -/
theorem C10_mkdir_before_dedup_and_copy (o : Oracles) (cwd filename src : String)
    (st : List Key) (cnt : Nat) (d : RawRecord)
    (hc : normalize_city (rawCity d) ≠ "")
    (hco : normalize_country (rawCountry d) ≠ "")
    (hct : normalize_continent (rawContinent d) ≠ "") :
    (processRecord o cwd filename src st cnt d).events.head? =
      some (Event.mkdirs (recDir d)) ∧
    (recKey cwd src filename d ∈ st →
      processRecord o cwd filename src st cnt d =
        ⟨Outcome.skipped (recKey cwd src filename d),
          [Event.mkdirs (recDir d)], st, cnt⟩) ∧
    (recKey cwd src filename d ∉ st → o.copyOk cnt = false →
      processRecord o cwd filename src st cnt d =
        ⟨Outcome.copyFailed (recKey cwd src filename d),
          [Event.mkdirs (recDir d), Event.copy src (recDst filename d)],
          st, cnt + 1⟩) := by
  have hcomp : normalize_city (rawCity d) ≠ "" ∧ normalize_country (rawCountry d) ≠ "" ∧
      normalize_continent (rawContinent d) ≠ "" := ⟨hc, hco, hct⟩
  refine ⟨?_, ?_, ?_⟩
  · unfold processRecord
    rw [if_pos hcomp]
    by_cases hk : recKey cwd src filename d ∈ st
    · rw [if_pos hk]; rfl
    · rw [if_neg hk]
      by_cases hcp : o.copyOk cnt = true
      · rw [if_pos hcp]; rfl
      · rw [if_neg hcp]; rfl
  · intro hk
    unfold processRecord
    rw [if_pos hcomp, if_pos hk]
  · intro hk hcp
    unfold processRecord
    rw [if_pos hcomp, if_neg hk, if_neg (by simp [hcp])]

theorem C10_witness :
    (normalize_city (rawCity d0cex) ≠ "" ∧ normalize_country (rawCountry d0cex) ≠ "" ∧
      normalize_continent (rawContinent d0cex) ≠ "") ∧
    (recKey "/w" "PDFsForOrganizer/a.pdf" "a.pdf" d0cex ∈ [k0cex]) ∧
    processRecord o9cex "/w" "a.pdf" "PDFsForOrganizer/a.pdf" [k0cex] 0 d0cex =
      ⟨Outcome.skipped (recKey "/w" "PDFsForOrganizer/a.pdf" "a.pdf" d0cex),
        [Event.mkdirs (recDir d0cex)], [k0cex], 0⟩ :=
  ⟨⟨by decide, by decide, by decide⟩, by decide,
   (C10_mkdir_before_dedup_and_copy o9cex "/w" "a.pdf" "PDFsForOrganizer/a.pdf" [k0cex] 0
      d0cex (by decide) (by decide) (by decide)).2.1 (by decide)⟩
